import Mathlib

/-!
Shallow embedding of src/smtp_lib/parse/transcript.py.

The Python module classifies every logical line of an SMTP transcript with
four compiled regular expressions, folds the lines into a list of exchanges,
and runs one backward error scan.  Each regular expression is translated
below into an executable matcher over List Char that reproduces the
backtracking behaviour of Python re.match on the concrete pattern.  Logical
lines are produced by str.splitlines and therefore contain no line-break
characters, so the dot character class is modelled as any character and the
end anchor as end of string.
-/

namespace SmtpLib

/-- Characters at which Python str.splitlines breaks lines. -/
def isLineBreakChar (c : Char) : Bool :=
  c = '\n' || c = '\r' || c = '\x0b' || c = '\x0c' || c = '\x1c' ||
  c = '\x1d' || c = '\x1e' || c = '\x85' || c = '\u2028' || c = '\u2029'

/-- Worker for `splitlines`: accumulates the current line in reverse. -/
def splitlinesGo : List Char → List Char → List (List Char)
  | [], acc => if acc.isEmpty then [] else [acc.reverse]
  | '\r' :: '\n' :: rest, acc => acc.reverse :: splitlinesGo rest []
  | c :: rest, acc =>
    if isLineBreakChar c then acc.reverse :: splitlinesGo rest []
    else splitlinesGo rest (c :: acc)

/-- Python str.splitlines (keepends=False): a trailing break produces no
trailing empty line, and a carriage return followed by a newline counts as a
single break. -/
def splitlines (s : List Char) : List (List Char) :=
  splitlinesGo s []

/-- Python regex class \s, restricted to its ASCII members (the transcripts
the parser classifies are ASCII). -/
def isPySpace (c : Char) : Bool :=
  c = ' ' || c = '\t' || c = '\n' || c = '\r' || c = '\x0b' || c = '\x0c'

/-- Attempt of _SMTP_RESPONSE_PATTERN with the optional enhanced-status-code
group taken: the tail must be \s \d \. \d \. \d \s (.+).  Returns
(status_code, enhanced capture, text). -/
def respGroupTry (sc : String) (rest : List Char) :
    Option (String × Option String × String) :=
  match rest with
  | w :: d1 :: p1 :: d2 :: p2 :: d3 :: w2 :: t =>
    if isPySpace w && d1.isDigit && p1 = '.' && d2.isDigit && p2 = '.' &&
       d3.isDigit && isPySpace w2 && !t.isEmpty then
      some (sc, some (String.mk [d1, '.', d2, '.', d3]), String.mk t)
    else none
  | _ => none

/-- Attempt of _SMTP_RESPONSE_PATTERN with the optional group skipped: the
tail must be \s (.+). -/
def respNoGroup (sc : String) (rest : List Char) :
    Option (String × Option String × String) :=
  match rest with
  | w :: t =>
    if isPySpace w && !t.isEmpty then some (sc, none, String.mk t) else none
  | [] => none

/-- _SMTP_RESPONSE_PATTERN:
    ^(?P<status_code>[0-9]{3})(\s(?P<enhanced_status_code>[0-9]\.[0-9]\.[0-9]))?\s(?P<text>.+)$
The greedy optional group is tried first; on failure the engine retries
without it. -/
def matchResponse : List Char → Option (String × Option String × String)
  | a :: b :: c :: rest =>
    if a.isDigit && b.isDigit && c.isDigit then
      match respGroupTry (String.mk [a, b, c]) rest with
      | some x => some x
      | none => respNoGroup (String.mk [a, b, c]) rest
    else none
  | _ => none

/-- Attempt of the optional group of _SMTP_MULTILINE_RESPONSE_PATTERN:
-([0-9]\.[0-9]{1,3}\.[0-9]{1,3}) followed by -(.+).  The bounded digit runs
are deterministic because a digit is never the delimiter that must follow
the run.  Only the trailing text capture is returned, as the caller discards
the continuation status and enhanced code. -/
def mlGroupTry (rest : List Char) : Option String :=
  match rest with
  | '-' :: d1 :: '.' :: r2 =>
    if d1.isDigit then
      let su := r2.takeWhile Char.isDigit
      let r3 := r2.dropWhile Char.isDigit
      if 1 ≤ su.length ∧ su.length ≤ 3 then
        match r3 with
        | '.' :: r4 =>
          let de := r4.takeWhile Char.isDigit
          let r5 := r4.dropWhile Char.isDigit
          if 1 ≤ de.length ∧ de.length ≤ 3 then
            match r5 with
            | '-' :: t => if !t.isEmpty then some (String.mk t) else none
            | _ => none
          else none
        | _ => none
      else none
    else none
  | _ => none

/-- _SMTP_MULTILINE_RESPONSE_PATTERN:
    ^(?P<status_code>[0-9]{3})(-(?P<enhanced_status_code>[0-9]\.[0-9]{1,3}\.[0-9]{1,3}))?-(?P<text>.+)$
Returns the text capture (the only group the parser uses). -/
def matchMultiline : List Char → Option String
  | a :: b :: c :: rest =>
    if a.isDigit && b.isDigit && c.isDigit then
      match mlGroupTry rest with
      | some t => some t
      | none =>
        match rest with
        | '-' :: t => if !t.isEmpty then some (String.mk t) else none
        | _ => none
    else none
  | _ => none

/-- _SMTP_COMMAND_PATTERN: ^(?P<command>[^ ]+)( (?P<arguments>.+))?$
Returns (command, arguments).  A line consisting of a command followed by a
single trailing space matches neither alternative of the optional group. -/
def matchCommand : List Char → Option (String × Option String)
  | [] => none
  | c :: cs =>
    if c = ' ' then none
    else
      let cmd := (c :: cs).takeWhile (fun x => x ≠ ' ')
      match (c :: cs).dropWhile (fun x => x ≠ ' ') with
      | [] => some (String.mk cmd, none)
      | _ :: t =>
        if !t.isEmpty then some (String.mk cmd, some (String.mk t)) else none

/-- Python str.upper restricted to its effect on ASCII characters (the
transcripts the parser handles are ASCII; the full Unicode case mapping is
not modelled). -/
def pyUpper (s : String) : String :=
  String.mk (s.data.map Char.toUpper)

/-- Consume an expected literal prefix. -/
def dropLit : List Char → List Char → Option (List Char)
  | [], r => some r
  | l :: ls, r =>
    match r with
    | c :: cs => if c = l then dropLit ls cs else none
    | [] => none

/-- Tail of _SMTP_QUEUED_AS_PATTERN after the optional byte-count group:
queued as (?P<queue_id>.+)$ -/
def queuedTail2 (r : List Char) : Option String :=
  match dropLit (String.data ("queued as ")) r with
  | some t => if !t.isEmpty then some (String.mk t) else none
  | none => none

/-- Tail of _SMTP_QUEUED_AS_PATTERN handling ([0-9]+ bytes )?; the greedy
digit run is deterministic (a digit never equals the following space). -/
def queuedTail1 (r : List Char) : Option String :=
  let ds := r.takeWhile Char.isDigit
  let r2 := r.dropWhile Char.isDigit
  let withBytes : Option String :=
    if !ds.isEmpty then
      match dropLit (String.data (" bytes ")) r2 with
      | some r3 => queuedTail2 r3
      | none => none
    else none
  match withBytes with
  | some q => some q
  | none => queuedTail2 r

/-- _SMTP_QUEUED_AS_PATTERN:
    ^250( 2\.0\.0)? Ok: ([0-9]+ bytes )?queued as (?P<queue_id>.+)$
Both optional groups are tried greedily with fallback. -/
def matchQueuedAs (line : List Char) : Option String :=
  match dropLit (String.data ("250")) line with
  | some r1 =>
    let withV : Option String :=
      match dropLit (String.data (" 2.0.0")) r1 with
      | some r2 =>
        match dropLit (String.data (" Ok: ")) r2 with
        | some r3 => queuedTail1 r3
        | none => none
      | none => none
    match withV with
    | some q => some q
    | none =>
      match dropLit (String.data (" Ok: ")) r1 with
      | some r3 => queuedTail1 r3
      | none => none
  | none => none

/-- _ENHANCED_STATUS_CODE_PATTERN:
    ^(?P<class>[0-9]{1,3})\.(?P<subject>[0-9]{1,3})\.(?P<detail>[0-9]{1,3})$
Returns (class, subject, detail). -/
def matchEnhanced (s : List Char) : Option (String × String × String) :=
  let c1 := s.takeWhile Char.isDigit
  let r1 := s.dropWhile Char.isDigit
  if 1 ≤ c1.length ∧ c1.length ≤ 3 then
    match r1 with
    | '.' :: r2 =>
      let c2 := r2.takeWhile Char.isDigit
      let r3 := r2.dropWhile Char.isDigit
      if 1 ≤ c2.length ∧ c2.length ≤ 3 then
        match r3 with
        | '.' :: r4 =>
          let c3 := r4.takeWhile Char.isDigit
          let r5 := r4.dropWhile Char.isDigit
          if 1 ≤ c3.length ∧ c3.length ≤ 3 ∧ r5.isEmpty then
            some (String.mk c1, String.mk c2, String.mk c3)
          else none
        | _ => none
      else none
    | _ => none
  else none

/-- ecs_py SMTPRequest (the fields the parser populates). -/
structure SMTPRequest where
  command : String
  arguments_string : Option String
deriving DecidableEq, Repr

/-- ecs_py SMTPEnhancedStatusCode (the fields the parser populates). -/
structure SMTPEnhancedStatusCode where
  original : String
  class_ : Option String := none
  class_text : Option String := none
  subject : Option String := none
  subject_text : Option String := none
  detail : Option String := none
  detail_text : Option String := none
deriving DecidableEq, Repr

/-- ecs_py SMTPResponse (the fields the parser populates). -/
structure SMTPResponse where
  status_code : String
  enhanced_status_code : Option SMTPEnhancedStatusCode
  lines : List String
deriving DecidableEq, Repr

/-- ecs_py SMTPExchange (the fields the parser populates). -/
structure SMTPExchange where
  request : Option SMTPRequest
  response : Option SMTPResponse
deriving DecidableEq, Repr

/-- The ExtraExchangeData dataclass of transcript.py. -/
structure ExtraExchangeData where
  queue_id : Option String := none
  error_message : Option String := none
  error_code : Option String := none
  error_type : Option String := none
deriving DecidableEq, Repr

/-- Modelled from the spec: the lookup tables CLASS_TO_TEXT, SUBJECT_TO_TEXT
and SUBJECT_DETAIL_TO_TEXT live in smtp_lib.codes, which is not part of the
given source; the spec treats them as external pure functions returning an
optional display string, with absent entries legal.  The parser is therefore
parameterised over them. -/
structure CodeTables where
  classToText : String → Option String
  subjectToText : String → Option String
  subjectDetailToText : String → String → Option String

/-- Modelled from the spec: a concrete instance of the lookup tables in which
every entry is absent, which the spec explicitly permits.  Used to evaluate
the parser on concrete transcripts; no claim depends on table contents. -/
def trivTables : CodeTables :=
  { classToText := fun _ => none
    subjectToText := fun _ => none
    subjectDetailToText := fun _ _ => none }

/-- Lines 60-74 of transcript.py: build the SMTPEnhancedStatusCode record
from a non-empty enhanced capture, decomposing it when the strict inner
pattern matches. -/
def buildEnhanced (tables : CodeTables) (e : String) : SMTPEnhancedStatusCode :=
  match matchEnhanced e.data with
  | some (cl, su, de) =>
    { original := e
      class_ := some cl
      class_text := tables.classToText cl
      subject := some su
      subject_text := tables.subjectToText su
      detail := some de
      detail_text := tables.subjectDetailToText su de }
  | none => { original := e }

/-- The walrus-guarded construction of the enhanced status code: Python
skips it when the capture is absent or empty (falsy). -/
def enhancedOf (tables : CodeTables) (enh : Option String) :
    Option SMTPEnhancedStatusCode :=
  match enh with
  | some e => if e.data.isEmpty then none else some (buildEnhanced tables e)
  | none => none

/-- The local mutable state of the classification loop of parse_transcript:
the accumulated exchanges, the pending request, the pending continuation
lines, and the extra data record. -/
structure ParseState where
  exchanges : List SMTPExchange
  smtp_request : Option SMTPRequest
  response_lines : List String
  extra : ExtraExchangeData

/-- The state at the top of parse_transcript. -/
def initState : ParseState :=
  { exchanges := []
    smtp_request := none
    response_lines := []
    extra := {} }

/-- One iteration of the classification loop (lines 51-103 of
transcript.py): the three patterns are tried in precedence order and a line
matching none of them raises the malformed-line error, modelled as
Except.error carrying the offending line (Python wraps it in the message
"Malformed SMTP line?: ..."). -/
def processLine (tables : CodeTables) (st : ParseState) (line : List Char) :
    Except String ParseState :=
  match matchResponse line with
  | some (sc, enh, text) =>
    let rls := st.response_lines ++ [text]
    let exch : SMTPExchange :=
      { request := st.smtp_request
        response := some
          { status_code := sc
            enhanced_status_code := enhancedOf tables enh
            lines := rls } }
    let qid : Option String :=
      match matchQueuedAs line with
      | some q => some q
      | none => st.extra.queue_id
    Except.ok
      { exchanges := st.exchanges ++ [exch]
        smtp_request := none
        response_lines := []
        extra := { st.extra with queue_id := qid } }
  | none =>
    match matchMultiline line with
    | some text =>
      Except.ok { st with response_lines := st.response_lines ++ [text] }
    | none =>
      match matchCommand line with
      | some (cmd, args) =>
        Except.ok
          { st with
            smtp_request := some
              { command := pyUpper cmd, arguments_string := args } }
      | none => Except.error (String.mk line)

/-- The classification loop over all lines. -/
def runLines (tables : CodeTables) : ParseState → List (List Char) →
    Except String ParseState
  | st, [] => Except.ok st
  | st, l :: ls =>
    match processLine tables st l with
    | Except.ok st2 => runLines tables st2 ls
    | Except.error e => Except.error e

/-- ' '.join(lines). -/
def joinSpace (ls : List String) : String :=
  String.intercalate (" ") ls

/-- Python `a or b` on optional strings: the empty string is falsy. -/
def pyOr (a b : Option String) : Option String :=
  match a with
  | some s => if s.data.isEmpty then b else some s
  | none => b

/-- The per-response body of the backward scan (lines 108-121 of
transcript.py): when the response is error-coded, returns the error code and
error message the scan would record; otherwise none.  The enhanced-class
check takes priority over the raw status-code check. -/
def responseErrorData (r : SMTPResponse) : Option (String × Option String) :=
  let rtext : Option String :=
    if r.lines.isEmpty then none else some (joinSpace r.lines)
  let enhancedHit : Option (String × Option String) :=
    match r.enhanced_status_code with
    | some e =>
      if e.class_ = some ("4") ∨ e.class_ = some ("5") then
        some (e.original, pyOr rtext e.detail_text)
      else none
    | none => none
  match enhancedHit with
  | some x => some x
  | none =>
    match r.status_code.data with
    | ch :: _ =>
      if ch = '4' ∨ ch = '5' then some (r.status_code, rtext) else none
    | [] => none

/-- Spec-level predicate: the response carries an error indication, either
an enhanced-status-code class of 4 or 5 or a raw status code whose first
character is 4 or 5. -/
def isErrorResponse (r : SMTPResponse) : Bool :=
  (match r.enhanced_status_code with
   | some e => decide (e.class_ = some ("4") ∨ e.class_ = some ("5"))
   | none => false) ||
  (match r.status_code.data with
   | ch :: _ => decide (ch = '4' ∨ ch = '5')
   | [] => false)

/-- An exchange whose response (if any) is not error-coded. -/
def nonErrorExchange (ex : SMTPExchange) : Bool :=
  match ex.response with
  | some r => !(isErrorResponse r)
  | none => true

/-- The backward error scan (lines 106-121 of transcript.py), applied to the
exchange list already reversed: exchanges without a response, and exchanges
whose response is not error-coded, are skipped (the Python loop body reaches
no break for them); the first error-coded response sets the three error
fields and stops the scan. -/
def errorScanGo : List SMTPExchange → ExtraExchangeData → ExtraExchangeData
  | [], extra => extra
  | ex :: rest, extra =>
    match ex.response with
    | some r =>
      match responseErrorData r with
      | some p =>
        { extra with
          error_code := some p.1
          error_message := p.2
          error_type := some ("No message was queued.") }
      | none => errorScanGo rest extra
    | none => errorScanGo rest extra

/-- Python truthiness of the queue_id field: None and the empty string are
falsy. -/
def queueIdFalsy : Option String → Bool
  | none => true
  | some s => s.data.isEmpty

/-- parse_transcript (lines 39-123 of transcript.py). -/
def parse_transcript (tables : CodeTables) (transcript_data : String) :
    Except String (List SMTPExchange × ExtraExchangeData) :=
  let ls := splitlines transcript_data.data
  if ls.isEmpty then Except.ok ([], initState.extra)
  else
    match runLines tables initState ls with
    | Except.ok st =>
      let extra :=
        if queueIdFalsy st.extra.queue_id then
          errorScanGo st.exchanges.reverse st.extra
        else st.extra
      Except.ok (st.exchanges, extra)
    | Except.error e => Except.error e

/-- Last element of a list with a default, written so that the cons case is
definitional; models the effect of repeated unconditional assignment. -/
def lastOr : List String → Option String → Option String
  | [], d => d
  | x :: xs, _ => lastOr xs (some x)

/-- Modelled from the claim's wording, for comparison with mlGroupTry: the
optional group of the continuation shape as the claim states it,
-(\d{1,3}\.\d{1,3}\.\d{1,3}) followed by -(.+), in which every component
may have 1-3 digits (the source pattern allows only a single digit in the
first component). -/
def claimedMlGroupTry (rest : List Char) : Option String :=
  match rest with
  | '-' :: r1 =>
    let c1 := r1.takeWhile Char.isDigit
    let r2 := r1.dropWhile Char.isDigit
    if 1 ≤ c1.length ∧ c1.length ≤ 3 then
      match r2 with
      | '.' :: r3 =>
        let c2 := r3.takeWhile Char.isDigit
        let r4 := r3.dropWhile Char.isDigit
        if 1 ≤ c2.length ∧ c2.length ≤ 3 then
          match r4 with
          | '.' :: r5 =>
            let c3 := r5.takeWhile Char.isDigit
            let r6 := r5.dropWhile Char.isDigit
            if 1 ≤ c3.length ∧ c3.length ≤ 3 then
              match r6 with
              | '-' :: t => if !t.isEmpty then some (String.mk t) else none
              | _ => none
            else none
          | _ => none
        else none
      | _ => none
    else none
  | _ => none

/-- Modelled from the claim's wording, for comparison with matchMultiline:
the text capture of the continuation shape as the claim states it,
^(\d{3})(-(\d{1,3}\.\d{1,3}\.\d{1,3}))?-(.+)$ -/
def claimedMultilineText : List Char → Option String
  | a :: b :: c :: rest =>
    if a.isDigit && b.isDigit && c.isDigit then
      match claimedMlGroupTry rest with
      | some t => some t
      | none =>
        match rest with
        | '-' :: t => if !t.isEmpty then some (String.mk t) else none
        | _ => none
    else none
  | _ => none

theorem dropLit_eq : ∀ {lit r r' : List Char}, dropLit lit r = some r' →
    r = lit ++ r' := by
  intro lit
  induction lit with
  | nil =>
    intro r r' h
    simp [dropLit] at h
    simp [h]
  | cons l ls ih =>
    intro r r' h
    cases r with
    | nil => simp [dropLit] at h
    | cons c cs =>
      simp only [dropLit] at h
      by_cases hc : c = l
      · rw [if_pos hc] at h
        subst hc
        simpa using ih h
      · rw [if_neg hc] at h
        cases h

theorem processLine_resp {tables : CodeTables} {st : ParseState}
    {line : List Char} {sc : String} {enh : Option String} {text : String}
    (h : matchResponse line = some (sc, enh, text)) :
    processLine tables st line = Except.ok
      { exchanges := st.exchanges ++
          [{ request := st.smtp_request
             response := some
               { status_code := sc
                 enhanced_status_code := enhancedOf tables enh
                 lines := st.response_lines ++ [text] } }]
        smtp_request := none
        response_lines := []
        extra :=
          { st.extra with
            queue_id :=
              match matchQueuedAs line with
              | some q => some q
              | none => st.extra.queue_id } } := by
  simp [processLine, h]

theorem processLine_ml {tables : CodeTables} {st : ParseState}
    {line : List Char} {text : String}
    (h1 : matchResponse line = none) (h2 : matchMultiline line = some text) :
    processLine tables st line =
      Except.ok { st with response_lines := st.response_lines ++ [text] } := by
  simp [processLine, h1, h2]

theorem processLine_cmd {tables : CodeTables} {st : ParseState}
    {line : List Char} {cmd : String} {args : Option String}
    (h1 : matchResponse line = none) (h2 : matchMultiline line = none)
    (h3 : matchCommand line = some (cmd, args)) :
    processLine tables st line =
      Except.ok
        { st with
          smtp_request := some
            { command := pyUpper cmd, arguments_string := args } } := by
  simp [processLine, h1, h2, h3]

theorem processLine_err {tables : CodeTables} {st : ParseState}
    {line : List Char}
    (h1 : matchResponse line = none) (h2 : matchMultiline line = none)
    (h3 : matchCommand line = none) :
    processLine tables st line = Except.error (String.mk line) := by
  simp [processLine, h1, h2, h3]

theorem digits_split {ds : List Char} {y : Char} {ys : List Char}
    (hds : ∀ x ∈ ds, x.isDigit = true) (hy : y.isDigit = false) :
    (ds ++ y :: ys).takeWhile Char.isDigit = ds ∧
    (ds ++ y :: ys).dropWhile Char.isDigit = y :: ys := by
  induction ds with
  | nil => simp [List.takeWhile_cons, List.dropWhile_cons, hy]
  | cons d ds ih =>
    have hd : d.isDigit = true := hds d (by simp)
    have hrest := ih (fun x hx => hds x (by simp [hx]))
    simp [List.takeWhile_cons, List.dropWhile_cons, hd, hrest.1, hrest.2]

theorem respGroupTry_none {sc : String} {w : Char} {rest : List Char}
    (hw : isPySpace w = false) : respGroupTry sc (w :: rest) = none := by
  rcases rest with _ | ⟨c1, _ | ⟨c2, _ | ⟨c3, _ | ⟨c4, _ | ⟨c5, _ | ⟨c6, r⟩⟩⟩⟩⟩⟩ <;>
    simp [respGroupTry, hw]

theorem respNoGroup_none {sc : String} {w : Char} {rest : List Char}
    (hw : isPySpace w = false) : respNoGroup sc (w :: rest) = none := by
  simp [respNoGroup, hw]

theorem matchResponse_dash {a b c : Char} {rest : List Char} :
    matchResponse (a :: b :: c :: '-' :: rest) = none := by
  have hw : isPySpace '-' = false := by decide
  by_cases h : (a.isDigit && b.isDigit && c.isDigit) = true
  · simp [matchResponse, h, respGroupTry_none hw, respNoGroup_none hw]
  · simp [matchResponse, h]

theorem queuedTail2_nonempty {r : List Char} {q : String}
    (h : queuedTail2 r = some q) : q.data ≠ [] := by
  unfold queuedTail2 at h
  split at h
  · split at h
    · rename_i t heq hc
      cases h
      intro hq
      have ht : t = [] := hq
      rw [ht] at hc
      simp at hc
    · exact Option.noConfusion h
  · exact Option.noConfusion h

theorem queuedTail1_nonempty {r : List Char} {q : String}
    (h : queuedTail1 r = some q) : q.data ≠ [] := by
  unfold queuedTail1 at h
  dsimp only at h
  split at h
  · rename_i q2 heq
    cases h
    split at heq
    · split at heq
      · exact queuedTail2_nonempty heq
      · exact Option.noConfusion heq
    · exact Option.noConfusion heq
  · exact queuedTail2_nonempty h

theorem matchQueuedAs_nonempty {line : List Char} {q : String}
    (h : matchQueuedAs line = some q) : q.data ≠ [] := by
  unfold matchQueuedAs at h
  split at h
  · dsimp only at h
    split at h
    · rename_i q2 heq
      cases h
      split at heq
      · split at heq
        · exact queuedTail1_nonempty heq
        · exact Option.noConfusion heq
      · exact Option.noConfusion heq
    · split at h
      · exact queuedTail1_nonempty h
      · exact Option.noConfusion h
  · exact Option.noConfusion h

theorem matchResponse_space_isSome {c : Char} {rest : List Char} :
    (matchResponse ('2' :: '5' :: '0' :: ' ' :: c :: rest)).isSome = true := by
  have hd : (('2').isDigit && ('5').isDigit && ('0').isDigit) = true := by decide
  simp only [matchResponse, hd, if_true]
  cases hg : respGroupTry (String.mk ['2', '5', '0']) (' ' :: c :: rest) with
  | some x => simp
  | none =>
    have hs : isPySpace ' ' = true := by decide
    simp [respNoGroup, hs]

/-- A line matched by the queued-as pattern is also matched by the
final-response pattern (the queued-as test is only reached inside the
final-response branch, and can never fire elsewhere). -/
theorem queued_isSome_response {line : List Char} {q : String}
    (h : matchQueuedAs line = some q) : (matchResponse line).isSome = true := by
  unfold matchQueuedAs at h
  split at h
  · rename_i r1 h0
    have hline : line = '2' :: '5' :: '0' :: r1 := dropLit_eq h0
    subst hline
    dsimp only at h
    split at h
    · rename_i q2 heq
      split at heq
      · rename_i r2 h1
        have hr1 : r1 = ' ' :: '2' :: '.' :: '0' :: '.' :: '0' :: r2 :=
          dropLit_eq h1
        subst hr1
        exact matchResponse_space_isSome
      · exact Option.noConfusion heq
    · split at h
      · rename_i r3 h2
        have hr1 : r1 = ' ' :: 'O' :: 'k' :: ':' :: ' ' :: r3 := dropLit_eq h2
        subst hr1
        exact matchResponse_space_isSome
      · exact Option.noConfusion h
  · exact Option.noConfusion h

theorem runLines_length {tables : CodeTables} :
    ∀ (ls : List (List Char)) (st st' : ParseState),
      runLines tables st ls = Except.ok st' →
      st'.exchanges.length =
        st.exchanges.length + ls.countP (fun l => (matchResponse l).isSome) := by
  intro ls
  induction ls with
  | nil =>
    intro st st' h
    simp only [runLines] at h
    cases h
    simp
  | cons l ls ih =>
    intro st st' h
    simp only [runLines] at h
    split at h
    · rename_i st2 heq
      cases hr : matchResponse l with
      | some v =>
        obtain ⟨sc, enh, text⟩ := v
        rw [processLine_resp hr] at heq
        cases heq
        have hlen := ih _ _ h
        rw [hlen]
        simp [List.countP_cons, hr]
        omega
      | none =>
        cases hm : matchMultiline l with
        | some text =>
          rw [processLine_ml hr hm] at heq
          cases heq
          have hlen := ih _ _ h
          rw [hlen]
          simp [List.countP_cons, hr]
        | none =>
          cases hc : matchCommand l with
          | some v =>
            obtain ⟨cmd, args⟩ := v
            rw [processLine_cmd hr hm hc] at heq
            cases heq
            have hlen := ih _ _ h
            rw [hlen]
            simp [List.countP_cons, hr]
          | none =>
            rw [processLine_err hr hm hc] at heq
            exact Except.noConfusion heq
    · exact Except.noConfusion h

theorem runLines_error_fields {tables : CodeTables} :
    ∀ (ls : List (List Char)) (st st' : ParseState),
      runLines tables st ls = Except.ok st' →
      st'.extra.error_message = st.extra.error_message ∧
      st'.extra.error_code = st.extra.error_code ∧
      st'.extra.error_type = st.extra.error_type := by
  intro ls
  induction ls with
  | nil =>
    intro st st' h
    simp only [runLines] at h
    cases h
    exact ⟨rfl, rfl, rfl⟩
  | cons l ls ih =>
    intro st st' h
    simp only [runLines] at h
    split at h
    · rename_i st2 heq
      cases hr : matchResponse l with
      | some v =>
        obtain ⟨sc, enh, text⟩ := v
        rw [processLine_resp hr] at heq
        cases heq
        have hres := ih _ _ h
        exact hres
      | none =>
        cases hm : matchMultiline l with
        | some text =>
          rw [processLine_ml hr hm] at heq
          cases heq
          have hres := ih _ _ h
          exact hres
        | none =>
          cases hc : matchCommand l with
          | some v =>
            obtain ⟨cmd, args⟩ := v
            rw [processLine_cmd hr hm hc] at heq
            cases heq
            have hres := ih _ _ h
            exact hres
          | none =>
            rw [processLine_err hr hm hc] at heq
            exact Except.noConfusion heq
    · exact Except.noConfusion h

theorem runLines_queue {tables : CodeTables} :
    ∀ (ls : List (List Char)) (st st' : ParseState),
      runLines tables st ls = Except.ok st' →
      st'.extra.queue_id =
        lastOr (ls.filterMap (fun l => matchQueuedAs l)) st.extra.queue_id := by
  intro ls
  induction ls with
  | nil =>
    intro st st' h
    simp only [runLines] at h
    cases h
    rfl
  | cons l ls ih =>
    intro st st' h
    simp only [runLines] at h
    split at h
    · rename_i st2 heq
      cases hr : matchResponse l with
      | some v =>
        obtain ⟨sc, enh, text⟩ := v
        rw [processLine_resp hr] at heq
        cases heq
        have hq := ih _ _ h
        cases hql : matchQueuedAs l with
        | some q =>
          rw [hq]
          simp [List.filterMap_cons, hql, lastOr]
        | none =>
          rw [hq]
          simp [List.filterMap_cons, hql]
      | none =>
        have hql : matchQueuedAs l = none := by
          cases hql : matchQueuedAs l with
          | none => rfl
          | some q =>
            have hsome := queued_isSome_response hql
            rw [hr] at hsome
            exact Bool.noConfusion hsome
        cases hm : matchMultiline l with
        | some text =>
          rw [processLine_ml hr hm] at heq
          cases heq
          have hq := ih _ _ h
          rw [hq]
          simp [List.filterMap_cons, hql]
        | none =>
          cases hc : matchCommand l with
          | some v =>
            obtain ⟨cmd, args⟩ := v
            rw [processLine_cmd hr hm hc] at heq
            cases heq
            have hq := ih _ _ h
            rw [hq]
            simp [List.filterMap_cons, hql]
          | none =>
            rw [processLine_err hr hm hc] at heq
            exact Except.noConfusion heq
    · exact Except.noConfusion h

theorem responseErrorData_isSome (r : SMTPResponse) :
    (responseErrorData r).isSome = isErrorResponse r := by
  unfold responseErrorData isErrorResponse
  dsimp only
  cases he : r.enhanced_status_code with
  | some e =>
    by_cases hc : e.class_ = some ("4") ∨ e.class_ = some ("5")
    · simp [hc]
    · cases hs : r.status_code.data with
      | nil => simp [hc, hs]
      | cons ch tl =>
        by_cases hch : ch = '4' ∨ ch = '5' <;> simp [hc, hs, hch]
  | none =>
    cases hs : r.status_code.data with
    | nil => simp [hs]
    | cons ch tl =>
      by_cases hch : ch = '4' ∨ ch = '5' <;> simp [hs, hch]

theorem errorScanGo_queue :
    ∀ (l : List SMTPExchange) (e : ExtraExchangeData),
      (errorScanGo l e).queue_id = e.queue_id := by
  intro l
  induction l with
  | nil => intro e; rfl
  | cons ex rest ih =>
    intro e
    cases hre : ex.response with
    | none => simp [errorScanGo, hre, ih e]
    | some r =>
      cases hd : responseErrorData r with
      | some p => simp [errorScanGo, hre, hd]
      | none => simp [errorScanGo, hre, hd, ih e]

theorem errorScanGo_error_type :
    ∀ (l : List SMTPExchange) (e : ExtraExchangeData),
      e.error_type = none →
      (((errorScanGo l e).error_type = some ("No message was queued.")) ↔
        ∃ ex ∈ l, ∃ r, ex.response = some r ∧ isErrorResponse r = true) := by
  intro l
  induction l with
  | nil =>
    intro e he
    simp [errorScanGo, he]
  | cons ex rest ih =>
    intro e he
    cases hre : ex.response with
    | none =>
      rw [show errorScanGo (ex :: rest) e = errorScanGo rest e by
        simp [errorScanGo, hre]]
      rw [ih e he]
      constructor
      · rintro ⟨ex', hmem, r, hr, herr⟩
        exact ⟨ex', List.mem_cons_of_mem _ hmem, r, hr, herr⟩
      · rintro ⟨ex', hmem, r, hr, herr⟩
        rcases List.mem_cons.mp hmem with heq | hmem'
        · subst heq; rw [hre] at hr; exact Option.noConfusion hr
        · exact ⟨ex', hmem', r, hr, herr⟩
    | some r =>
      cases hd : responseErrorData r with
      | some p =>
        have herr : isErrorResponse r = true := by
          rw [← responseErrorData_isSome, hd]; rfl
        rw [show errorScanGo (ex :: rest) e =
            { e with
              error_code := some p.1
              error_message := p.2
              error_type := some ("No message was queued.") } by
          simp [errorScanGo, hre, hd]]
        constructor
        · intro _
          exact ⟨ex, List.mem_cons_self _ _, r, hre, herr⟩
        · intro _
          rfl
      | none =>
        have herr : isErrorResponse r = false := by
          rw [← responseErrorData_isSome, hd]; rfl
        rw [show errorScanGo (ex :: rest) e = errorScanGo rest e by
          simp [errorScanGo, hre, hd]]
        rw [ih e he]
        constructor
        · rintro ⟨ex', hmem, r', hr', herr'⟩
          exact ⟨ex', List.mem_cons_of_mem _ hmem, r', hr', herr'⟩
        · rintro ⟨ex', hmem, r', hr', herr'⟩
          rcases List.mem_cons.mp hmem with heq | hmem'
          · subst heq
            rw [hre] at hr'
            cases hr'
            rw [herr] at herr'
            exact Bool.noConfusion herr'
          · exact ⟨ex', hmem', r', hr', herr'⟩

theorem errorScanGo_skip :
    ∀ (l1 rest : List SMTPExchange) (e : ExtraExchangeData),
      (∀ ex ∈ l1, nonErrorExchange ex = true) →
      errorScanGo (l1 ++ rest) e = errorScanGo rest e := by
  intro l1
  induction l1 with
  | nil => intro rest e _; rfl
  | cons ex l1 ih =>
    intro rest e hall
    have hex : nonErrorExchange ex = true := hall ex (by simp)
    have hrest : ∀ ex' ∈ l1, nonErrorExchange ex' = true :=
      fun ex' hm => hall ex' (by simp [hm])
    rw [List.cons_append]
    cases hre : ex.response with
    | none =>
      rw [show errorScanGo (ex :: (l1 ++ rest)) e = errorScanGo (l1 ++ rest) e by
        simp [errorScanGo, hre]]
      exact ih rest e hrest
    | some r =>
      have herr : isErrorResponse r = false := by
        unfold nonErrorExchange at hex
        rw [hre] at hex
        simpa using hex
      have hd : responseErrorData r = none := by
        have hi := responseErrorData_isSome r
        rw [herr] at hi
        exact Option.not_isSome_iff_eq_none.mp (by simp [hi])
      rw [show errorScanGo (ex :: (l1 ++ rest)) e = errorScanGo (l1 ++ rest) e by
        simp [errorScanGo, hre, hd]]
      exact ih rest e hrest

theorem errorScanGo_hit {ex : SMTPExchange} {r : SMTPResponse}
    {p : String × Option String} {rest : List SMTPExchange}
    {e : ExtraExchangeData} (hre : ex.response = some r)
    (hd : responseErrorData r = some p) :
    errorScanGo (ex :: rest) e =
      { e with
        error_code := some p.1
        error_message := p.2
        error_type := some ("No message was queued.") } := by
  simp [errorScanGo, hre, hd]

theorem lastOr_append_last :
    ∀ (qs : List String) (q : String) (d : Option String),
      lastOr (qs ++ [q]) d = some q := by
  intro qs
  induction qs with
  | nil => intro q d; rfl
  | cons x xs ih => intro q d; exact ih q (some x)

theorem lastOr_mem :
    ∀ (xs : List String) (d r : Option String), lastOr xs d = r →
      r = d ∨ ∃ s ∈ xs, r = some s := by
  intro xs
  induction xs with
  | nil => intro d r h; exact Or.inl h.symm
  | cons x xs ih =>
    intro d r h
    rcases ih (some x) r h with h1 | ⟨s, hs, h2⟩
    · exact Or.inr ⟨x, by simp, h1⟩
    · exact Or.inr ⟨s, by simp [hs], h2⟩

/-- Case analysis of a successful parse_transcript call: either the split
transcript is empty, or the classification loop succeeded and the extra data
is post-processed by the conditional backward scan. -/
theorem parse_transcript_ok {tables : CodeTables} {t : String}
    {exs : List SMTPExchange} {extra : ExtraExchangeData}
    (h : parse_transcript tables t = Except.ok (exs, extra)) :
    (splitlines t.data = [] ∧ exs = [] ∧ extra = initState.extra) ∨
    (∃ st : ParseState,
      runLines tables initState (splitlines t.data) = Except.ok st ∧
      exs = st.exchanges ∧
      extra = if queueIdFalsy st.extra.queue_id then
          errorScanGo st.exchanges.reverse st.extra
        else st.extra) := by
  unfold parse_transcript at h
  dsimp only at h
  by_cases hls : (splitlines t.data).isEmpty = true
  · rw [if_pos hls] at h
    cases h
    left
    exact ⟨by simpa using hls, rfl, rfl⟩
  · rw [if_neg hls] at h
    split at h
    · rename_i st hrun
      cases h
      exact Or.inr ⟨st, hrun, rfl, rfl⟩
    · exact Except.noConfusion h

theorem runLines_responses {tables : CodeTables} :
    ∀ (ls : List (List Char)) (st st' : ParseState),
      (∀ ex ∈ st.exchanges, ex.response.isSome = true ∧
        ex.response.map SMTPResponse.lines ≠ some []) →
      runLines tables st ls = Except.ok st' →
      ∀ ex ∈ st'.exchanges, ex.response.isSome = true ∧
        ex.response.map SMTPResponse.lines ≠ some [] := by
  intro ls
  induction ls with
  | nil =>
    intro st st' hinv h
    simp only [runLines] at h
    cases h
    exact hinv
  | cons l ls ih =>
    intro st st' hinv h
    simp only [runLines] at h
    split at h
    · rename_i st2 heq
      cases hr : matchResponse l with
      | some v =>
        obtain ⟨sc, enh, text⟩ := v
        rw [processLine_resp hr] at heq
        cases heq
        refine ih _ _ ?_ h
        intro ex hmem
        rcases List.mem_append.mp hmem with hmem1 | hmem2
        · exact hinv ex hmem1
        · have hx := List.mem_singleton.mp hmem2
          subst hx
          exact ⟨rfl, by simp⟩
      | none =>
        cases hm : matchMultiline l with
        | some text =>
          rw [processLine_ml hr hm] at heq
          cases heq
          exact ih { st with response_lines := st.response_lines ++ [text] }
            st' hinv h
        | none =>
          cases hc : matchCommand l with
          | some v =>
            obtain ⟨cmd, args⟩ := v
            rw [processLine_cmd hr hm hc] at heq
            cases heq
            exact ih
              { st with
                smtp_request := some
                  { command := pyUpper cmd, arguments_string := args } }
              st' hinv h
          | none =>
            rw [processLine_err hr hm hc] at heq
            exact Except.noConfusion heq
    · exact Except.noConfusion h

/-- C4: for every transcript that parses without error, the number of
exchanges in the returned sequence equals the number of transcript lines
that match the final-response shape (each such line appends exactly one
exchange, and no other line kind appends one). -/
theorem C4_exchange_count :
    ∀ (tables : CodeTables) (t : String) (exs : List SMTPExchange)
      (extra : ExtraExchangeData),
      parse_transcript tables t = Except.ok (exs, extra) →
      exs.length =
        (splitlines t.data).countP (fun l => (matchResponse l).isSome) := by
  intro tables t exs extra h
  rcases parse_transcript_ok h with ⟨hnil, hexs, _⟩ | ⟨st, hrun, hexs, _⟩
  · subst hexs
    rw [hnil]
    rfl
  · subst hexs
    have hlen := runLines_length _ _ _ hrun
    simpa [initState] using hlen

/-- Witness for C4 at the transcript "250 a" plus a trailing command line:
one exchange, one final-response line. -/
theorem C4_witness :
    ([({ request := none
         response := some
           { status_code := ("250")
             enhanced_status_code := none
             lines := [("a")] } } : SMTPExchange)]).length =
      (splitlines (String.data ("250 a\nFOO"))).countP
        (fun l => (matchResponse l).isSome) :=
  C4_exchange_count trivTables ("250 a\nFOO") _ _ rfl

/-- C5: queue-id recording is last-write-wins: whenever the list of
queued-as captures over the transcript lines is non-empty (in particular
when there are two or more), the returned queue_id is the capture of the
last such line in transcript order. -/
theorem C5_queue_last_wins :
    ∀ (tables : CodeTables) (t : String) (exs : List SMTPExchange)
      (extra : ExtraExchangeData) (qs : List String) (q : String),
      parse_transcript tables t = Except.ok (exs, extra) →
      (splitlines t.data).filterMap (fun l => matchQueuedAs l) = qs ++ [q] →
      extra.queue_id = some q := by
  intro tables t exs extra qs q h hfm
  rcases parse_transcript_ok h with ⟨hnil, _, _⟩ | ⟨st, hrun, _, hextra⟩
  · rw [hnil] at hfm
    exact absurd hfm.symm (by simp)
  · have hq := runLines_queue _ _ _ hrun
    rw [hfm, lastOr_append_last] at hq
    have hqd : q.data ≠ [] := by
      have hmem : q ∈ (splitlines t.data).filterMap (fun l => matchQueuedAs l) := by
        rw [hfm]
        simp
      rcases List.mem_filterMap.mp hmem with ⟨l, _, hl⟩
      exact matchQueuedAs_nonempty hl
    have hfalse : queueIdFalsy st.extra.queue_id = false := by
      rw [hq]
      show q.data.isEmpty = false
      cases hqdata : q.data with
      | nil => exact absurd hqdata hqd
      | cons c cs => rfl
    have hcond : ¬ (queueIdFalsy st.extra.queue_id = true) := by
      simp [hfalse]
    rw [hextra, if_neg hcond]
    exact hq

/-- Witness for C5 at a transcript with two queued-as lines: the second id
wins. -/
theorem C5_witness :
    ({ queue_id := some ("B")
       error_message := none
       error_code := none
       error_type := none } : ExtraExchangeData).queue_id = some ("B") :=
  C5_queue_last_wins trivTables ("250 Ok: queued as A\n250 Ok: queued as B")
    _ _ [("A")] ("B") rfl rfl

/-- C6: the concrete queued-as line yields queue_id "ABC123", and whenever
queue_id ends up set the three error fields remain absent (the error scan is
skipped). -/
theorem C6_queue_id_set_no_errors :
    (∃ exs, parse_transcript trivTables
        ("250 2.0.0 Ok: 12345 bytes queued as ABC123") =
      Except.ok (exs,
        { queue_id := some ("ABC123")
          error_message := none
          error_code := none
          error_type := none })) ∧
    ∀ (tables : CodeTables) (t : String) (exs : List SMTPExchange)
      (extra : ExtraExchangeData) (q : String),
      parse_transcript tables t = Except.ok (exs, extra) →
      extra.queue_id = some q →
      extra.error_message = none ∧ extra.error_code = none ∧
        extra.error_type = none := by
  constructor
  · exact ⟨_, rfl⟩
  · intro tables t exs extra q h hq
    rcases parse_transcript_ok h with ⟨_, _, hextra⟩ | ⟨st, hrun, _, hextra⟩
    · subst hextra
      exact ⟨rfl, rfl, rfl⟩
    · have hfields := runLines_error_fields _ _ _ hrun
      by_cases hfalsy : queueIdFalsy st.extra.queue_id = true
      · rw [if_pos hfalsy] at hextra
        have hqp : extra.queue_id = st.extra.queue_id := by
          rw [hextra]
          exact errorScanGo_queue _ _
        rw [hq] at hqp
        have hqd : q.data.isEmpty = true := by
          rw [← hqp] at hfalsy
          simpa [queueIdFalsy] using hfalsy
        have hqq := runLines_queue _ _ _ hrun
        rw [← hqp] at hqq
        rcases lastOr_mem _ _ _ hqq.symm with hd | ⟨s, hs, hqs⟩
        · exact absurd hd (by simp [initState])
        · rcases List.mem_filterMap.mp hs with ⟨l, _, hl⟩
          have hne := matchQueuedAs_nonempty hl
          cases hqs
          cases hqdata : q.data with
          | nil => exact absurd hqdata hne
          | cons c cs =>
            rw [hqdata] at hqd
            exact absurd hqd (by simp)
      · rw [if_neg hfalsy] at hextra
        subst hextra
        exact ⟨hfields.1.trans rfl, hfields.2.1.trans rfl, hfields.2.2.trans rfl⟩

/-- Witness for C6 at the transcript "250 Ok: queued as Q": queue id set,
error fields absent. -/
theorem C6_witness :
    ({ queue_id := some ("Q")
       error_message := none
       error_code := none
       error_type := none } : ExtraExchangeData).error_message = none ∧
    ({ queue_id := some ("Q")
       error_message := none
       error_code := none
       error_type := none } : ExtraExchangeData).error_code = none ∧
    ({ queue_id := some ("Q")
       error_message := none
       error_code := none
       error_type := none } : ExtraExchangeData).error_type = none :=
  C6_queue_id_set_no_errors.2 trivTables ("250 Ok: queued as Q") _ _ ("Q")
    rfl rfl

/-- C8: parsing the empty-string transcript never fails: it returns the
empty exchange sequence and an ExtraExchangeData with every field absent. -/
theorem C8_empty_transcript_never_fails :
    parse_transcript trivTables ("") =
      Except.ok ([],
        { queue_id := none
          error_message := none
          error_code := none
          error_type := none }) := rfl

/-- C9: every exchange emitted by a successful parse carries a response
(the optional field is set), and that response's lines list is non-empty. -/
theorem C9_response_present_lines_nonempty :
    ∀ (tables : CodeTables) (t : String) (exs : List SMTPExchange)
      (extra : ExtraExchangeData),
      parse_transcript tables t = Except.ok (exs, extra) →
      ∀ ex ∈ exs, ex.response.isSome = true ∧
        ex.response.map SMTPResponse.lines ≠ some [] := by
  intro tables t exs extra h
  rcases parse_transcript_ok h with ⟨_, hexs, _⟩ | ⟨st, hrun, hexs, _⟩
  · subst hexs
    intro ex hmem
    exact absurd hmem (by simp)
  · subst hexs
    refine runLines_responses _ _ _ ?_ hrun
    intro ex hmem
    exact absurd hmem (by simp [initState])

/-- Witness for C9 at the transcript "250 hi". -/
theorem C9_witness :
    ({ request := none
       response := some
         { status_code := ("250")
           enhanced_status_code := none
           lines := [("hi")] } } : SMTPExchange).response.isSome = true ∧
    ({ request := none
       response := some
         { status_code := ("250")
           enhanced_status_code := none
           lines := [("hi")] } } : SMTPExchange).response.map
        SMTPResponse.lines ≠ some [] :=
  C9_response_present_lines_nonempty trivTables ("250 hi")
    [{ request := none
       response := some
         { status_code := ("250")
           enhanced_status_code := none
           lines := [("hi")] } }]
    { queue_id := none
      error_message := none
      error_code := none
      error_type := none } rfl _ (by simp)

/-- C1 counterexample: the transcript "550 err" then "250 ok" parses with no
queue id, its nearest-to-end exchange has the non-error response 250, yet
the error fields are set from the earlier 550 exchange — the backward scan
does not terminate at the first exchange that has a response. -/
theorem C1_counterexample :
    parse_transcript trivTables ("550 err\n250 ok") =
      Except.ok
        ([{ request := none
            response := some
              { status_code := ("550")
                enhanced_status_code := none
                lines := [("err")] } },
          { request := none
            response := some
              { status_code := ("250")
                enhanced_status_code := none
                lines := [("ok")] } }],
         { queue_id := none
           error_message := some ("err")
           error_code := some ("550")
           error_type := some ("No message was queued.") }) ∧
    nonErrorExchange
      { request := none
        response := some
          { status_code := ("250")
            enhanced_status_code := none
            lines := [("ok")] } } = true := ⟨rfl, rfl⟩

/-- C1 (amended): when no queue id is recorded, the backward scan does not
stop at the first exchange that has a response: it skips exchanges whose
response is not error-coded and stops at the nearest-to-end exchange whose
response is error-coded, setting error_code, error_message and error_type
from it; the error fields are set iff some exchange has an error-coded
response. -/
theorem C1_scan_amended :
    ∀ (tables : CodeTables) (t : String) (exs : List SMTPExchange)
      (extra : ExtraExchangeData),
      parse_transcript tables t = Except.ok (exs, extra) →
      extra.queue_id = none →
      (((extra.error_type = some ("No message was queued.")) ↔
          ∃ ex ∈ exs, ∃ r, ex.response = some r ∧ isErrorResponse r = true) ∧
        ∀ (pre suf : List SMTPExchange) (ex : SMTPExchange)
          (r : SMTPResponse) (p : String × Option String),
          exs = pre ++ ex :: suf → ex.response = some r →
          responseErrorData r = some p →
          suf.all nonErrorExchange = true →
          extra.error_code = some p.1 ∧ extra.error_message = p.2 ∧
            extra.error_type = some ("No message was queued.")) := by
  intro tables t exs extra h hqid
  rcases parse_transcript_ok h with ⟨_, hexs, hextra⟩ | ⟨st, hrun, hexs, hextra⟩
  · subst hexs
    subst hextra
    constructor
    · constructor
      · intro habs
        exact absurd habs (by simp [initState])
      · rintro ⟨ex, hmem, _⟩
        exact absurd hmem (by simp)
    · intro pre suf ex r p hdec _ _ _
      exact absurd hdec (by simp)
  · subst hexs
    have hfields := runLines_error_fields _ _ _ hrun
    have het : st.extra.error_type = none := hfields.2.2.trans rfl
    have hfalsy : queueIdFalsy st.extra.queue_id = true := by
      cases hb : queueIdFalsy st.extra.queue_id with
      | true => rfl
      | false =>
        rw [if_neg (by simp [hb])] at hextra
        subst hextra
        rw [hqid] at hb
        exact absurd hb (by simp [queueIdFalsy])
    rw [if_pos hfalsy] at hextra
    constructor
    · rw [hextra]
      rw [errorScanGo_error_type _ _ het]
      constructor
      · rintro ⟨ex, hmem, r, hresp, herr⟩
        exact ⟨ex, List.mem_reverse.mp hmem, r, hresp, herr⟩
      · rintro ⟨ex, hmem, r, hresp, herr⟩
        exact ⟨ex, List.mem_reverse.mpr hmem, r, hresp, herr⟩
    · intro pre suf ex r p hdec hresp hrp hall
      rw [hextra, hdec]
      have hrev : (pre ++ ex :: suf).reverse =
          suf.reverse ++ ex :: pre.reverse := by
        simp [List.reverse_append]
      rw [hrev]
      have hall' : ∀ ex' ∈ suf.reverse, nonErrorExchange ex' = true := by
        intro ex' hmem
        exact (List.all_eq_true.mp hall) ex' (List.mem_reverse.mp hmem)
      rw [errorScanGo_skip suf.reverse (ex :: pre.reverse) st.extra hall',
        errorScanGo_hit hresp hrp]
      exact ⟨rfl, rfl, rfl⟩

/-- Witness for the amended C1 at the one-line transcript "550 err". -/
theorem C1_witness :
    ({ queue_id := none
       error_message := some ("err")
       error_code := some ("550")
       error_type := some ("No message was queued.") } :
        ExtraExchangeData).error_code = some ("550") ∧
    ({ queue_id := none
       error_message := some ("err")
       error_code := some ("550")
       error_type := some ("No message was queued.") } :
        ExtraExchangeData).error_message = some ("err") ∧
    ({ queue_id := none
       error_message := some ("err")
       error_code := some ("550")
       error_type := some ("No message was queued.") } :
        ExtraExchangeData).error_type = some ("No message was queued.") :=
  (C1_scan_amended trivTables ("550 err")
      [{ request := none
         response := some
           { status_code := ("550")
             enhanced_status_code := none
             lines := [("err")] } }]
      { queue_id := none
        error_message := some ("err")
        error_code := some ("550")
        error_type := some ("No message was queued.") } rfl rfl).2
    [] []
    { request := none
      response := some
        { status_code := ("550")
          enhanced_status_code := none
          lines := [("err")] } }
    { status_code := ("550"), enhanced_status_code := none, lines := [("err")] }
    (("550"), some ("err")) rfl rfl rfl rfl

/-- C2 counterexample: parsing the one-line transcript "!!!not smtp!!!"
succeeds (no MalformedLineError is raised), returning the empty exchange
sequence and default extra data. -/
theorem C2_counterexample :
    parse_transcript trivTables ("!!!not smtp!!!") =
      Except.ok ([],
        { queue_id := none
          error_message := none
          error_code := none
          error_type := none }) := rfl

/-- C2 (amended): the line "!!!not smtp!!!" matches the command shape
(command "!!!not" upper-cased to "!!!NOT", arguments "smtp!!!"), so the
parser records it as a pending request and the call succeeds with no
exchange; it does not fail with the malformed-line error. -/
theorem C2_amended_command_line :
    matchCommand (String.data ("!!!not smtp!!!")) =
      some (("!!!not"), some ("smtp!!!")) ∧
    processLine trivTables initState (String.data ("!!!not smtp!!!")) =
      Except.ok
        { initState with
          smtp_request := some
            { command := ("!!!NOT"), arguments_string := some ("smtp!!!") } } ∧
    parse_transcript trivTables ("!!!not smtp!!!") =
      Except.ok ([], initState.extra) := ⟨rfl, rfl, rfl⟩

/-- C3 counterexample: "250-12.3.4-foo" matches the claimed continuation
shape with text capture "foo" and is not a final response line, but the
parser appends "12.3.4-foo" (the source pattern allows only a single digit
in the first enhanced component, so its optional group fails and the whole
enhanced prefix lands in the text capture). -/
theorem C3_counterexample :
    claimedMultilineText (String.data ("250-12.3.4-foo")) = some ("foo") ∧
    matchResponse (String.data ("250-12.3.4-foo")) = none ∧
    matchMultiline (String.data ("250-12.3.4-foo")) = some ("12.3.4-foo") ∧
    parse_transcript trivTables ("250-12.3.4-foo\n250 done") =
      Except.ok
        ([{ request := none
            response := some
              { status_code := ("250")
                enhanced_status_code := none
                lines := [("12.3.4-foo"), ("done")] } }],
         { queue_id := none
           error_message := none
           error_code := none
           error_type := none }) := ⟨rfl, rfl, rfl, rfl⟩

/-- C3 (amended): for every line of the source's continuation shape
^(\d{3})(-(\d\.\d{1,3}\.\d{1,3}))?-(.+)$ with the enhanced group present —
a single-digit first component — the parser appends exactly the text
capture to the pending lines buffer, appends no exchange, and discards the
continuation's status and enhanced code. -/
theorem C3_amended_continuation :
    ∀ (tables : CodeTables) (st : ParseState) (a b c d1 : Char)
      (su de txt : List Char),
      a.isDigit = true → b.isDigit = true → c.isDigit = true →
      d1.isDigit = true →
      (∀ x ∈ su, x.isDigit = true) → 1 ≤ su.length → su.length ≤ 3 →
      (∀ x ∈ de, x.isDigit = true) → 1 ≤ de.length → de.length ≤ 3 →
      txt ≠ [] →
      processLine tables st
          (a :: b :: c :: '-' :: d1 :: '.' :: (su ++ '.' :: de ++ '-' :: txt)) =
        Except.ok
          { st with response_lines := st.response_lines ++ [String.mk txt] } := by
  intro tables st a b c d1 su de txt ha hb hc hd1 hsu hsu1 hsu3 hde hde1 hde3 htxt
  have hresp : matchResponse
      (a :: b :: c :: '-' :: d1 :: '.' :: (su ++ '.' :: de ++ '-' :: txt)) =
        none := matchResponse_dash
  have h1 := @digits_split su ('.') (de ++ '-' :: txt) hsu (by decide)
  have h2 := @digits_split de ('-') txt hde (by decide)
  have htxtE : txt.isEmpty = false := by
    cases txt with
    | nil => exact absurd rfl htxt
    | cons x xs => rfl
  have hg : mlGroupTry ('-' :: d1 :: '.' :: (su ++ '.' :: de ++ '-' :: txt)) =
      some (String.mk txt) := by
    simp only [mlGroupTry]
    rw [hd1]
    simp [h1.1, h1.2, h2.1, h2.2, hsu1, hsu3, hde1, hde3, htxtE]
  have hml : matchMultiline
      (a :: b :: c :: '-' :: d1 :: '.' :: (su ++ '.' :: de ++ '-' :: txt)) =
      some (String.mk txt) := by
    simp only [matchMultiline, ha, hb, hc, Bool.and_self, if_true, hg]
  exact processLine_ml hresp hml

/-- Witness for the amended C3 at the line "250-2.3.4-foo". -/
theorem C3_witness :
    processLine trivTables initState
        ('2' :: '5' :: '0' :: '-' :: '2' :: '.' ::
          (['3'] ++ '.' :: ['4'] ++ '-' :: ['f', 'o', 'o'])) =
      Except.ok
        { initState with
          response_lines := initState.response_lines ++
            [String.mk ['f', 'o', 'o']] } :=
  C3_amended_continuation trivTables initState '2' '5' '0' '2' ['3'] ['4']
    ['f', 'o', 'o'] (by decide) (by decide) (by decide) (by decide)
    (by decide) (by decide) (by decide) (by decide) (by decide) (by decide)
    (by decide)

/-- C7: the four-line transcript EHLO/250/RCPT/550 yields exactly two
exchanges; no queue id is recorded, so the backward scan finds the second
exchange's response with enhanced class "5" and sets error_code "5.1.1",
error_message "User unknown" and error_type "No message was queued.". -/
theorem C7_error_tail_scenario :
    parse_transcript trivTables
        ("EHLO example.com\n250 hello\nRCPT TO:<x>\n550 5.1.1 User unknown") =
      Except.ok
        ([{ request := some
              { command := ("EHLO"), arguments_string := some ("example.com") }
            response := some
              { status_code := ("250")
                enhanced_status_code := none
                lines := [("hello")] } },
          { request := some
              { command := ("RCPT"), arguments_string := some ("TO:<x>") }
            response := some
              { status_code := ("550")
                enhanced_status_code := some
                  { original := ("5.1.1")
                    class_ := some ("5")
                    class_text := none
                    subject := some ("1")
                    subject_text := none
                    detail := some ("1")
                    detail_text := none }
                lines := [("User unknown")] } }],
         { queue_id := none
           error_message := some ("User unknown")
           error_code := some ("5.1.1")
           error_type := some ("No message was queued.") }) := rfl

/-- C10: a logical line that is empty or begins with a space matches none of
the three shapes, so the whole parse fails; an interior blank line (two
consecutive newlines) fails, while a single trailing newline is dropped by
line splitting and is harmless. -/
theorem C10_blank_or_space_lines :
    (∀ line : List Char, (line = [] ∨ ∃ r, line = ' ' :: r) →
      matchResponse line = none ∧ matchMultiline line = none ∧
        matchCommand line = none) ∧
    (∀ (tables : CodeTables) (ls : List (List Char)) (st : ParseState)
      (line : List Char), line ∈ ls →
      (line = [] ∨ ∃ r, line = ' ' :: r) →
      ∃ e, runLines tables st ls = Except.error e) ∧
    (∀ tables : CodeTables,
      parse_transcript tables ("a\n\nb") = Except.error ("")) ∧
    (∀ tables : CodeTables,
      parse_transcript tables ("a\n") =
        Except.ok ([],
          { queue_id := none
            error_message := none
            error_code := none
            error_type := none })) := by
  have hsp : Char.isDigit ' ' = false := by decide
  have classify : ∀ line : List Char, (line = [] ∨ ∃ r, line = ' ' :: r) →
      matchResponse line = none ∧ matchMultiline line = none ∧
        matchCommand line = none := by
    intro line hline
    rcases hline with rfl | ⟨r, rfl⟩
    · exact ⟨rfl, rfl, rfl⟩
    · refine ⟨?_, ?_, ?_⟩
      · rcases r with _ | ⟨x, _ | ⟨y, t⟩⟩ <;> simp [matchResponse, hsp]
      · rcases r with _ | ⟨x, _ | ⟨y, t⟩⟩ <;> simp [matchMultiline, hsp]
      · simp [matchCommand]
  refine ⟨classify, ?_, ?_, ?_⟩
  · intro tables ls
    induction ls with
    | nil =>
      intro st line hmem _
      exact absurd hmem (by simp)
    | cons l ls ih =>
      intro st line hmem hline
      rcases List.mem_cons.mp hmem with rfl | hmem'
      · obtain ⟨hr, hm, hc⟩ := classify line hline
        exact ⟨String.mk line, by simp [runLines, processLine_err hr hm hc]⟩
      · cases hp : processLine tables st l with
        | error e =>
          exact ⟨e, by simp [runLines, hp]⟩
        | ok st2 =>
          obtain ⟨e, he⟩ := ih st2 line hmem' hline
          exact ⟨e, by simp [runLines, hp, he]⟩
  · intro tables
    rfl
  · intro tables
    rfl

/-- Witness for C10: a list containing the single-space line makes the loop
fail. -/
theorem C10_witness :
    ∃ e, runLines trivTables initState [[' ']] = Except.error e :=
  C10_blank_or_space_lines.2.1 trivTables [[' ']] initState [' ']
    (by simp) (Or.inr ⟨[], rfl⟩)

end SmtpLib
